import Mathlib

/-!
Shallow embedding of the quant_platform analytics core
(`src/analysis/fractal.py`, `src/analysis/risk.py`,
`src/ai/tools/quant_tools.py`) and proofs about it.

Modelling conventions:
* Python floats are modelled as `ℚ`; machine rounding is out of scope.
* A missing value (`NaN` entry of a series) is `none` in `List (Option ℚ)`;
  `Series.dropna` is `dropna` below.
* Library numeric kernels that are not rational-valued or not part of this
  repository (`np.sqrt`, `np.log10`, `np.log`, `np.exp`, float `**` with a
  fractional exponent, `np.polyfit`/`np.polyval`, `np.gradient`, the `arch`
  GARCH fitter, the `fbm` sample generator) are passed in as explicit
  function/list parameters; all control flow, list building and rational
  arithmetic of the Python source is embedded directly.
* A Python exception is a `PyErr` value returned through `Except`.
-/

-- Batteries marks the `Rat` field operations `@[irreducible]`, which blocks
-- elaboration-time evaluation of concrete witnesses; restore the default
-- transparency for this development (kernel checking is unaffected).
attribute [local semireducible] Rat.mul Rat.add Rat.sub Rat.inv

/-- Python exception classes raised (or named by the spec) for the analytics
core.  The source only ever raises builtin `ValueError`/`TypeError`; the
spec's error taxonomy additionally names a class `InsufficientDataError`
that does not occur anywhere in the repository, modelled here as its own
constructor so that statements about it can be made. -/
inductive PyErr where
  | valueError (msg : String)
  | typeError (msg : String)
  | indexError (msg : String)
  | insufficientDataError (msg : String)
  deriving DecidableEq, Repr

/-- Does a raised error have the spec's `InsufficientDataError` class? -/
def raisedInsufficientData : PyErr → Bool
  | PyErr.insufficientDataError _ => true
  | _ => false

/-- Embedding of `pd.Series.dropna()`: drop missing values, keeping order. -/
def dropna (l : List (Option ℚ)) : List ℚ := l.filterMap id

/-- Arithmetic mean (`np.mean` / `pd.Series.mean`); `0` on the empty list
(where the float code would give `NaN`). -/
def listMean (l : List ℚ) : ℚ := l.sum / l.length

/-- Cumulative sums with accumulator (`pd.Series.cumsum` / `np.cumsum`). -/
def cumsumAux (acc : ℚ) : List ℚ → List ℚ
  | [] => []
  | x :: xs => (acc + x) :: cumsumAux (acc + x) xs

/-- Cumulative sums: `cumsum [a, b, c] = [a, a+b, a+b+c]`. -/
def cumsum (l : List ℚ) : List ℚ := cumsumAux 0 l

/-- Maximum of a list, `0` for the empty list (never used on it). -/
def listMax : List ℚ → ℚ
  | [] => 0
  | x :: xs => xs.foldl max x

/-- Minimum of a list, `0` for the empty list (never used on it). -/
def listMin : List ℚ → ℚ
  | [] => 0
  | x :: xs => xs.foldl min x

/-- Sample variance with `ddof = 1` (`pd.Series.std` squared): division by
`length - 1`; for a list of length `≤ 1` the rational division by zero
yields `0` (the float code yields `NaN`, which fails every `> 0` test just
as `0` does). -/
def sampleVar (l : List ℚ) : ℚ :=
  (l.map (fun x => (x - listMean l) ^ 2)).sum / ((l.length : ℚ) - 1)

/-- Ordinary-least-squares slope of `ys` against `xs`
(`scipy.stats.linregress(xs, ys).slope`). -/
def olsSlope (xs ys : List ℚ) : ℚ :=
  let xm := listMean xs
  let ym := listMean ys
  ((xs.zip ys).map (fun p => (p.1 - xm) * (p.2 - ym))).sum /
    ((xs.map (fun x => (x - xm) ^ 2)).sum)

/-- Embedding of `np.clip x lo hi`. -/
def npClip (x lo hi : ℚ) : ℚ := min (max x lo) hi

/-- The sorted copy of a list that `pd.Series.quantile` / `np.percentile`
work on. -/
def sortedVals (l : List ℚ) : List ℚ := l.insertionSort (· ≤ ·)

/-- Linear-interpolation quantile of `l` at level `q ∈ [0,1]`
(`pd.Series.quantile(q)`, also `np.percentile(l, 100*q)`): with the sorted
values `s` of length `n`, the virtual position is `q*(n-1)`; the result
interpolates between the two neighbouring order statistics. -/
def quantileLinear (l : List ℚ) (q : ℚ) : ℚ :=
  let s := sortedVals l
  let n := s.length
  let pos := q * ((n : ℚ) - 1)
  let i := (Int.floor pos).toNat
  let frac := pos - (i : ℚ)
  if i + 1 < n then
    s.getD i 0 + frac * (s.getD (i + 1) 0 - s.getD i 0)
  else
    s.getD i 0

/-- Result of `calculate_cvar`: a raised exception, the float `NaN`, or an
ordinary float. -/
inductive CvarResult where
  | err (e : PyErr)
  | nan
  | val (x : ℚ)
  deriving DecidableEq, Repr

/-- Embedding of `calculate_cvar` (src/analysis/risk.py lines 12-29).
The `isinstance` TypeError guard is made vacuous by typing. -/
def calculate_cvar (returns : List (Option ℚ)) (confidence_level : ℚ) : CvarResult :=
  if ¬ (0 < confidence_level ∧ confidence_level < 1) then
    CvarResult.err (PyErr.valueError ("Confidence level must be between 0 and 1"))
  else
    let clean_returns := dropna returns
    if clean_returns.length = 0 then CvarResult.nan
    else
      let var_threshold := quantileLinear clean_returns (1 - confidence_level)
      let tail_losses := clean_returns.filter (fun x => x ≤ var_threshold)
      if tail_losses.length = 0 then CvarResult.val (-var_threshold)
      else CvarResult.val (-(listMean tail_losses))

example : calculate_cvar [some 1, some 2, some 3, some 4] (95/100) = CvarResult.val (-1) := by decide

example : quantileLinear [1, 2, 3, 4] (5/100) = 23/20 := by decide

/-- Decidable equality for `Except`, so concrete runs can be checked by `decide`. -/
instance instDecEqExcept {ε α : Type} [DecidableEq ε] [DecidableEq α] :
    DecidableEq (Except ε α)
  | Except.error x, Except.error y =>
    if h : x = y then isTrue (by subst h; rfl)
    else isFalse (by intro hc; cases hc; exact h rfl)
  | Except.error _, Except.ok _ => isFalse (by intro hc; cases hc)
  | Except.ok _, Except.error _ => isFalse (by intro hc; cases hc)
  | Except.ok x, Except.ok y =>
    if h : x = y then isTrue (by subst h; rfl)
    else isFalse (by intro hc; cases hc; exact h rfl)

/-- R/S statistics of all sub-windows of one window size
(src/analysis/fractal.py lines 70-82): for each start position, the range of
the mean-centered cumulative deviation divided by the sample standard
deviation, kept only when that standard deviation is positive.  `sqrt`
abstracts `np.sqrt` (so `S = sqrt (sampleVar sub)` is `sub.std()`).
The Python loop runs over `range(0, len - window + 1)`, which is empty when
`window > len`; the caller's guard ensures `window ≤ len` here. -/
def rsWindowVals (sqrt : ℚ → ℚ) (series : List ℚ) (window : ℕ) : List ℚ :=
  (List.range (series.length - window + 1)).filterMap (fun start =>
    let sub_series := (series.drop start).take window
    if sub_series.length < window then none
    else
      let mean_centered := sub_series.map (fun x => x - listMean sub_series)
      let cum_dev := cumsum mean_centered
      let R := listMax cum_dev - listMin cum_dev
      let S := sqrt (sampleVar sub_series)
      if 0 < S then some (R / S) else none)

/-- The parallel accumulation loop of `calculate_hurst`
(src/analysis/fractal.py lines 64-86): walk the candidate window sizes; skip
a window below `min_window` or above the series length; compute the R/S
statistics of its sub-windows; only when at least one sub-window was valid,
append the mean R/S to the first list and the window size itself to the
second.  Returns `(rs_values, window_sizes)`. -/
def hurstPairs (sqrt : ℚ → ℚ) (series : List ℚ) (min_window : ℕ) :
    List ℕ → List ℚ × List ℕ
  | [] => ([], [])
  | window :: rest =>
    let tail := hurstPairs sqrt series min_window rest
    if window < min_window ∨ series.length < window then tail
    else
      let rs_window := rsWindowVals sqrt series window
      if rs_window.isEmpty then tail
      else (listMean rs_window :: tail.1, window :: tail.2)

/-- Embedding of `calculate_hurst` (src/analysis/fractal.py lines 32-96).
`windows` is the candidate scale set the source computes as
`np.unique(np.logspace(log10 min_window, log10 max_window, 20).astype(int))`
(a strictly ascending list of naturals; transcendental, hence a parameter),
`log10` abstracts `np.log10` and `sqrt` abstracts the square root inside
`pd.Series.std`. -/
def calculate_hurst (sqrt log10 : ℚ → ℚ) (series : List (Option ℚ))
    (min_window : ℕ) (windows : List ℕ) : Except PyErr ℚ :=
  if series.length < 20 then
    Except.error (PyErr.valueError
      ("Series too short for reliable Hurst calculation (minimum 20 points)"))
  else
    let cleaned := dropna series
    let p := hurstPairs sqrt cleaned min_window windows
    if p.1.length < 3 then
      Except.error (PyErr.valueError ("Insufficient valid windows for Hurst calculation."))
    else
      let log_windows := p.2.map (fun w => log10 (w : ℚ))
      let log_rs := p.1.map log10
      Except.ok (npClip (olsSlope log_windows log_rs) (1/100) (99/100))

/-- Start offsets `np.arange(0, N - b + 1, b)` of the non-overlapping DFA
boxes (src/analysis/fractal.py line 138).  Empty when `b > N` (the arange
bound is nonpositive); `b = 0` would make `np.arange` raise and never occurs
(candidate box sizes are ≥ the configured minimum ≥ 1). -/
def boxStarts (N b : ℕ) : List ℕ :=
  if b = 0 ∨ N < b then [] else (List.range ((N - b) / b + 1)).map (· * b)

/-- Per-box RMS fluctuations of one box size (src/analysis/fractal.py lines
139-147): for each box, least-squares fit a degree-`order` polynomial to the
profile segment (`np.polyfit`/`np.polyval`, abstracted as `polyfit`, which
returns the fitted trend values), subtract it, and take the RMS of the
residual (`sqrt` abstracts `np.sqrt`). -/
def boxFluct (sqrt : ℚ → ℚ) (polyfit : ℕ → List ℚ → List ℚ) (order : ℕ)
    (profile : List ℚ) (b : ℕ) : List ℚ :=
  (boxStarts profile.length b).map (fun start =>
    let box_profile := (profile.drop start).take b
    let trend := polyfit order box_profile
    let detrended := box_profile.zipWith (fun x t => x - t) trend
    sqrt (listMean (detrended.map (fun d => d ^ 2))))

/-- The fluctuation accumulation loop of `calculate_dfa`
(src/analysis/fractal.py lines 136-150): one mean fluctuation per box size
that produced at least one box. -/
def dfaFlucts (sqrt : ℚ → ℚ) (polyfit : ℕ → List ℚ → List ℚ) (order : ℕ)
    (profile : List ℚ) (box_sizes : List ℕ) : List ℚ :=
  box_sizes.filterMap (fun b =>
    let bf := boxFluct sqrt polyfit order profile b
    if bf.isEmpty then none else some (listMean bf))

/-- Cumulative profile of the mean-removed cleaned series
(src/analysis/fractal.py lines 126-133):
`profile = np.cumsum(data - np.mean(data))` after `dropna`. -/
def dfaProfile (series : List (Option ℚ)) : List ℚ :=
  let data := dropna series
  cumsum (data.map (fun x => x - listMean data))

/-- Embedding of `calculate_dfa` (src/analysis/fractal.py lines 100-159).
`box_sizes` is the candidate scale set the source computes as
`np.unique(np.logspace(log10 min_box_size, log10 max_box_size, 25).astype(int))`
(strictly ascending, hence sorted; a parameter as for `calculate_hurst`).
Note the source regresses against `box_sizes[:len(fluctuations)]`, the
positional prefix of the candidate list, not a parallel list of retained
sizes. -/
def calculate_dfa (sqrt log10 : ℚ → ℚ) (polyfit : ℕ → List ℚ → List ℚ)
    (series : List (Option ℚ)) (order : ℕ) (box_sizes : List ℕ) : Except PyErr ℚ :=
  if series.length < 50 then
    Except.error (PyErr.valueError ("Series too short for reliable DFA (minimum 50 points)"))
  else
    let profile := dfaProfile series
    let fluctuations := dfaFlucts sqrt polyfit order profile box_sizes
    if fluctuations.length < 5 then
      Except.error (PyErr.valueError ("Insufficient valid box sizes for DFA calculation."))
    else
      let log_sizes := (box_sizes.take fluctuations.length).map (fun b => log10 (b : ℚ))
      let log_flucts := fluctuations.map log10
      Except.ok (olsSlope log_sizes log_flucts)

/-- Test series: 0,1 alternating, length 20. -/
def altSeries : List (Option ℚ) := (List.range 20).map (fun i => some ((i % 2 : ℕ) : ℚ))

/-- Embedding of `np.arange start stop step` for a positive rational step:
`start + k*step` for `k = 0, …, ⌈(stop-start)/step⌉ - 1`. -/
def arange (start stop step : ℚ) : List ℚ :=
  (List.range (Int.ceil ((stop - start) / step)).toNat).map
    (fun k => start + (k : ℚ) * step)

/-- Output record of `calculate_multifractal_spectrum`: parallel arrays. -/
structure MFSpectrum where
  alpha : List ℚ
  f_alpha : List ℚ
  q_values : List ℚ
  tau_q : List ℚ
  deriving DecidableEq, Repr

/-- One iteration of the τ(q) loop (src/analysis/fractal.py lines 193-217)
for a single moment order `q`: collect `(log box_size, log Z_q)` pairs in
lockstep over the candidate box sizes — a size is skipped when it yields
fewer than 3 boxes, fewer than 3 positive box measures, or a nonpositive
partition function — and return `-slope` of their regression when at least
3 pairs survive, `none` (the source's `np.nan`) otherwise.  `log` abstracts
`np.log` and `rpow` the float power `p ** q`. -/
def tauAtQ (log : ℚ → ℚ) (rpow : ℚ → ℚ → ℚ) (measure : List ℚ)
    (box_sizes : List ℕ) (q : ℚ) : Option ℚ :=
  let N := measure.length
  let pairs : List (ℚ × ℚ) := box_sizes.filterMap (fun b =>
    let n_boxes := N / b
    if n_boxes < 3 then none
    else
      let box_measures := (List.range n_boxes).map
        (fun i => ((measure.drop (i * b)).take b).sum)
      let box_measures := box_measures.filter (fun x => 0 < x)
      if box_measures.length < 3 then none
      else
        let probabilities := box_measures.map (fun m => m / box_measures.sum)
        let Z_q := (probabilities.map (fun p => rpow p q)).sum
        if 0 < Z_q then some (log (b : ℚ), log Z_q) else none)
  if 3 ≤ pairs.length then
    some (-(olsSlope (pairs.map Prod.fst) (pairs.map Prod.snd)))
  else none

/-- Embedding of `calculate_multifractal_spectrum` (src/analysis/fractal.py
lines 163-230).  `box_sizes` is the candidate set computed in the source as
`np.unique(np.logspace(log10 10, log10 (N//8), 15).astype(int))` (a
parameter, as for the other estimators); `gradient` abstracts the numpy
nonuniform-grid numerical gradient `np.gradient(tau_valid, q_valid)`.
The per-regime statistics of the source end in the returned dict unchanged;
no further computation happens after the Legendre transform. -/
def calculate_multifractal_spectrum (log : ℚ → ℚ) (rpow : ℚ → ℚ → ℚ)
    (gradient : List ℚ → List ℚ → List ℚ) (series : List (Option ℚ))
    (q_range : ℚ × ℚ) (q_step : ℚ) (box_sizes : List ℕ) : Except PyErr MFSpectrum :=
  if series.length < 200 then
    Except.error (PyErr.valueError
      ("Series too short for reliable multifractal analysis (minimum 200 points)"))
  else
    let cleaned := dropna series
    let measure := (cleaned.zip cleaned.tail).map
      (fun p => |p.2 - p.1| + 1 / 10000000000)
    let q_values := arange q_range.1 (q_range.2 + q_step) q_step
    let tau_q := q_values.map (tauAtQ log rpow measure box_sizes)
    let paired := (q_values.zip tau_q).filterMap
      (fun p => p.2.map (fun t => (p.1, t)))
    let q_valid := paired.map Prod.fst
    let tau_valid := paired.map Prod.snd
    if q_valid.length < 3 then
      Except.error (PyErr.valueError
        "Insufficient valid τ(q) values for spectrum calculation")
    else
      let alpha_q := gradient tau_valid q_valid
      let f_alpha := (q_valid.zip (alpha_q.zip tau_valid)).map
        (fun p => p.1 * p.2.1 - p.2.2)
      Except.ok ⟨alpha_q, f_alpha, q_valid, tau_valid⟩

/-- Embedding of `np.diff(l, prepend=0)`: successive differences of `0 :: l`; the result
has the same length as `l`. -/
def diffPrepend0 (l : List ℚ) : List ℚ :=
  ((0 :: l).zip l).map (fun p => p.2 - p.1)

set_option linter.unusedVariables false in
/-- Embedding of `generate_fbm_path` (src/analysis/fractal.py lines 234-274).
`fbm_sample` is the sample returned by the external `fbm` library generator
`FBM(n=days, hurst=hurst, length=days*dt, method='daviesharte').fbm()`
(its contract: `days + 1` points); `exp` abstracts `np.exp` and `sqrt`
abstracts `np.sqrt`. -/
def generate_fbm_path (sqrt exp : ℚ → ℚ) (fbm_sample : List ℚ)
    (initial_price hurst : ℚ) (days : ℕ) (volatility drift : ℚ) :
    Except PyErr (List ℚ) :=
  if ¬ (0 < hurst ∧ hurst < 1) then
    Except.error (PyErr.valueError ("Hurst exponent must be between 0 and 1"))
  else
    let dt : ℚ := 1 / 252
    let drift_term := (drift - (1 / 2) * volatility ^ 2) * dt
    let vol_term := volatility * sqrt dt
    let returns := (diffPrepend0 fbm_sample).map
      (fun inc => drift_term + vol_term * inc)
    Except.ok ((cumsum returns).map (fun c => initial_price * exp c))

/-- Embedding of `fit_garch_forecast` (src/analysis/risk.py lines 31-67).
The input is a list of `(date, value)` pairs, dates as integer day numbers
(the pandas `DatetimeIndex`).  The `arch` library fit (with its internal
Student-t → normal fallback) is external; `garch_variance_row` is the row
`forecast.variance.iloc[0].values` it produces for the requested horizon.
After the guard, the source builds `future_dates` as the `forecast_horizon`
calendar days after the last input date and pairs them with
`sqrt(variance)/100`; `pd.Series(values, index=...)` raises when the two
lengths differ.  Note the source returns only this forecast series — no
in-sample conditional-volatility series — although its annotation says
`-> tuple` and both call sites unpack two values
(src/core/main.py line 455, src/ai/tools/quant_tools.py line 148). -/
def fit_garch_forecast (sqrt : ℚ → ℚ) (garch_variance_row : List ℚ)
    (returns : List (ℤ × Option ℚ)) (forecast_horizon : ℕ) :
    Except PyErr (List (ℤ × ℚ)) :=
  if returns.length < 50 then
    Except.error (PyErr.valueError
      ("Need at least 50 observations for reliable GARCH estimation."))
  else
    match returns.getLast? with
    | none => Except.error (PyErr.valueError ("index out of range"))
    | some last =>
      let future_vol_values := garch_variance_row.map (fun v => sqrt v / 100)
      let future_dates := (List.range forecast_horizon).map
        (fun k : ℕ => last.1 + 1 + (k : ℤ))
      if future_vol_values.length ≠ forecast_horizon then
        Except.error (PyErr.valueError
          "Length of values does not match length of index")
      else Except.ok (future_dates.zip future_vol_values)

/-- One entry of the fallback's per-regime statistics map
(src/ai/tools/quant_tools.py lines 242-247). -/
structure RegimeStat where
  mean_return : ℚ
  volatility : ℚ
  frequency : ℚ
  name : String
  deriving DecidableEq, Repr

/-- Result record of the volatility fallback branch of
`detect_market_regimes` (src/ai/tools/quant_tools.py lines 249-257); the
`n_regimes` echo and the constant `model_likelihood: None` field are not
modelled. -/
structure RegimeFallback where
  regime_labels : List ℕ
  current_regime : ℕ
  regime_characteristics : List (String × RegimeStat)
  transition_matrix : List (List ℚ)
  method : String
  deriving DecidableEq, Repr

/-- Embedding of `pd.Series(data).rolling(window).std()`: at index `i`, the sample
standard deviation (ddof = 1, `sqrt` abstracting the square root) of the
`window` observations ending at `i`; missing (`NaN`) while fewer than
`window` observations are available. -/
def rollingStd (sqrt : ℚ → ℚ) (window : ℕ) (data : List ℚ) : List (Option ℚ) :=
  (List.range data.length).map (fun i =>
    if i + 1 < window then none
    else some (sqrt (sampleVar ((data.drop (i + 1 - window)).take window))))

/-- Population variance (`np.std` squared, ddof = 0), used by the
fallback's per-regime volatility. -/
def popVar (l : List ℚ) : ℚ :=
  (l.map (fun x => (x - listMean l) ^ 2)).sum / (l.length : ℚ)

/-- The literal `["low_volatility", "medium_volatility", "high_volatility"][i]`
of src/ai/tools/quant_tools.py line 246: a hard-coded three-element list, so
any regime index ≥ 3 raises `IndexError`. -/
def regimeName : ℕ → Except PyErr String
  | 0 => Except.ok ("low_volatility")
  | 1 => Except.ok ("medium_volatility")
  | 2 => Except.ok ("high_volatility")
  | _ => Except.error (PyErr.indexError ("list index out of range"))

/-- The per-regime statistics loop of the fallback
(src/ai/tools/quant_tools.py lines 237-247), over the regime indices
`range(n_regimes)`: for each index, the data observations labelled with it
(boolean-mask selection), their mean and population standard deviation
(0.0 when the regime is empty), the mask frequency, and the hard-coded
regime name — whose lookup raises `IndexError` for an index ≥ 3, aborting
the whole fallback.  (The source evaluates the dict entries before the
failing name lookup; nothing of that is observable since the exception
escapes either way.) -/
def regimeStatsAux (sqrt : ℚ → ℚ) (data : List ℚ) (regimes : List ℕ) :
    List ℕ → Except PyErr (List (String × RegimeStat))
  | [] => Except.ok []
  | i :: rest =>
    match regimeName i with
    | Except.error e => Except.error e
    | Except.ok name =>
      let regime_data := ((data.zip regimes).filter (fun p => p.2 == i)).map Prod.fst
      let entry : String × RegimeStat :=
        ("regime_" ++ toString i,
         { mean_return := if 0 < regime_data.length then listMean regime_data else 0
           volatility := if 0 < regime_data.length then sqrt (popVar regime_data) else 0
           frequency := ((regimes.filter (fun lab => lab == i)).length : ℚ) /
             (regimes.length : ℚ)
           name := name })
      match regimeStatsAux sqrt data regimes rest with
      | Except.error e => Except.error e
      | Except.ok tail => Except.ok (entry :: tail)

/-- The label computation of the fallback branch
(src/ai/tools/quant_tools.py lines 225-235): 33rd/67th `np.percentile` of
the non-missing window-20 rolling standard deviations, then one bucket per
observation, missing → 1 (medium). -/
def fallbackRegimes (sqrt : ℚ → ℚ) (data : List ℚ) : List ℕ :=
  let rolling_vol := rollingStd sqrt 20 data
  let dropped := rolling_vol.filterMap id
  let p33 := quantileLinear dropped (33 / 100)
  let p67 := quantileLinear dropped (67 / 100)
  rolling_vol.map (fun vol =>
    match vol with
    | none => 1
    | some v => if v < p33 then 0 else if v < p67 then 1 else 2)

/-- Embedding of the fallback branch of `detect_market_regimes`
(src/ai/tools/quant_tools.py lines 219-258): rolling standard deviation with
window 20, percentile bucketing (`fallbackRegimes`), the per-regime
statistics loop (`regimeStatsAux`, which raises for `n_regimes ≥ 4`), then
the result record with an empty transition matrix.  `np.percentile` on an
empty array raises, modelled as the first error case. -/
def detect_market_regimes_fallback (sqrt : ℚ → ℚ) (data : List ℚ)
    (n_regimes : ℕ) : Except PyErr RegimeFallback :=
  let dropped := (rollingStd sqrt 20 data).filterMap id
  if dropped.isEmpty then
    Except.error (PyErr.valueError ("zero-size array to reduction operation"))
  else
    let regimes := fallbackRegimes sqrt data
    match regimeStatsAux sqrt data regimes (List.range n_regimes) with
    | Except.error e => Except.error e
    | Except.ok regime_stats =>
      Except.ok
        { regime_labels := regimes
          current_regime := regimes.getLast?.getD 1
          regime_characteristics := regime_stats
          transition_matrix := []
          method := "fallback_volatility_based" }

/-! ## Basic lemmas about the embedded primitives -/

theorem cumsumAux_length (acc : ℚ) (l : List ℚ) : (cumsumAux acc l).length = l.length := by
  induction l generalizing acc with
  | nil => rfl
  | cons x xs ih => simp [cumsumAux, ih]

theorem cumsum_length (l : List ℚ) : (cumsum l).length = l.length :=
  cumsumAux_length 0 l

theorem diffPrepend0_length (l : List ℚ) : (diffPrepend0 l).length = l.length := by
  simp [diffPrepend0]

theorem listSum_le_length_mul (l : List ℚ) (a : ℚ) (h : ∀ x ∈ l, x ≤ a) :
    l.sum ≤ (l.length : ℚ) * a := by
  induction l with
  | nil => simp
  | cons x xs ih =>
    have hx : x ≤ a := h x (by simp)
    have hxs := ih (fun y hy => h y (by simp [hy]))
    have hr : ((xs.length : ℚ) + 1) * a = a + (xs.length : ℚ) * a := by ring
    push_cast [List.length_cons, List.sum_cons]
    linarith

theorem listMean_le_of_forall_le (l : List ℚ) (a : ℚ) (hl : l ≠ [])
    (h : ∀ x ∈ l, x ≤ a) : listMean l ≤ a := by
  have hlen : 0 < (l.length : ℚ) := by
    have := List.length_pos.2 hl
    exact_mod_cast this
  rw [listMean, div_le_iff₀ hlen]
  have := listSum_le_length_mul l a h
  linarith

/-- Does a computation that may raise end in the spec's
`InsufficientDataError` class? -/
def raisedInsufficientDataE {α : Type} : Except PyErr α → Bool
  | Except.error e => raisedInsufficientData e
  | Except.ok _ => false

/-! ## C3: behaviour on series below the documented minimum length -/

/-- C3 (amended): for every input series shorter than the documented minimum
(20 for `calculate_hurst`, 50 for `calculate_dfa`, 200 for
`calculate_multifractal_spectrum`), the function raises a builtin
`ValueError` — the repository defines no `InsufficientDataError` class —
at its very first statement, before any computation on the data. -/
theorem short_series_raises_valueError
    (sqrt log10 log : ℚ → ℚ) (rpow : ℚ → ℚ → ℚ) (polyfit : ℕ → List ℚ → List ℚ)
    (gradient : List ℚ → List ℚ → List ℚ) (series : List (Option ℚ))
    (min_window order : ℕ) (windows box_sizes mf_box_sizes : List ℕ)
    (q_range : ℚ × ℚ) (q_step : ℚ) :
    (series.length < 20 →
      calculate_hurst sqrt log10 series min_window windows =
        Except.error (PyErr.valueError
          ("Series too short for reliable Hurst calculation (minimum 20 points)"))) ∧
    (series.length < 50 →
      calculate_dfa sqrt log10 polyfit series order box_sizes =
        Except.error (PyErr.valueError
          ("Series too short for reliable DFA (minimum 50 points)"))) ∧
    (series.length < 200 →
      calculate_multifractal_spectrum log rpow gradient series q_range q_step mf_box_sizes =
        Except.error (PyErr.valueError
          ("Series too short for reliable multifractal analysis (minimum 200 points)"))) := by
  refine ⟨fun h => ?_, fun h => ?_, fun h => ?_⟩ <;>
    simp [calculate_hurst, calculate_dfa, calculate_multifractal_spectrum, h]

/-- C3 counterexample to the claim as stated: on a too-short series each
function raises `ValueError`, which is not the `InsufficientDataError` the
claim names (no such class exists in the repository). -/
theorem short_series_not_insufficientDataError :
    calculate_hurst id id [] 10 [] =
      Except.error (PyErr.valueError
        ("Series too short for reliable Hurst calculation (minimum 20 points)")) ∧
    raisedInsufficientDataE (calculate_hurst id id [] 10 []) = false ∧
    raisedInsufficientDataE (calculate_dfa id id (fun _ _ => []) [] 1 []) = false ∧
    raisedInsufficientDataE
      (calculate_multifractal_spectrum id (fun p _ => p) (fun t _ => t)
        [] (-5, 5) (1/4) []) = false := by
  decide

/-- Witness for C3 at the empty series. -/
theorem short_series_raises_valueError_witness :
    ([] : List (Option ℚ)).length < 20 ∧
    calculate_hurst id id [] 10 [] =
      Except.error (PyErr.valueError
        ("Series too short for reliable Hurst calculation (minimum 20 points)")) :=
  ⟨by decide,
   (short_series_raises_valueError id id id (fun p _ => p) (fun _ _ => [])
      (fun t _ => t) [] 10 1 [] [] [] (-5, 5) (1/4)).1 (by decide)⟩

/-! ## C8: confidence-level validation and the empty series -/

/-- C8: `calculate_cvar` raises `ValueError` for every confidence level
outside the open interval (0,1); for a confidence level strictly inside
(0,1) and a series empty after NaN removal it returns the float `NaN`,
not an exception. -/
theorem cvar_invalid_confidence_and_empty_series (returns : List (Option ℚ)) (c : ℚ) :
    ((c ≤ 0 ∨ 1 ≤ c) →
      calculate_cvar returns c =
        CvarResult.err (PyErr.valueError ("Confidence level must be between 0 and 1"))) ∧
    (0 < c → c < 1 → dropna returns = [] → calculate_cvar returns c = CvarResult.nan) := by
  constructor
  · intro h
    have hn : ¬ (0 < c ∧ c < 1) := by
      rcases h with h | h
      · exact fun hc => absurd hc.1 (not_lt.2 h)
      · exact fun hc => absurd hc.2 (not_lt.2 h)
    simp [calculate_cvar, hn]
  · intro h0 h1 he
    simp [calculate_cvar, he, h0, h1]

/-- Witness for C8: an out-of-range confidence level raises; a valid one on
an all-NaN series returns NaN. -/
theorem cvar_invalid_confidence_and_empty_series_witness :
    calculate_cvar [some 1] 2 =
      CvarResult.err (PyErr.valueError ("Confidence level must be between 0 and 1")) ∧
    calculate_cvar [none] (1/2) = CvarResult.nan :=
  ⟨(cvar_invalid_confidence_and_empty_series [some 1] 2).1 (Or.inr (by decide)),
   (cvar_invalid_confidence_and_empty_series [none] (1/2)).2
     (by decide) (by decide) (by decide)⟩

/-! ## C7: fBm path generator validation, length and positivity -/

/-- C7: `generate_fbm_path` raises `ValueError` for every Hurst value
outside (0,1); for every valid input (positive initial price, Hurst in
(0,1), positive day count, non-negative volatility) and an fBm library
sample of its contractual length `days + 1`, the returned path is a list of
strictly positive values of length `days + 1` (since `np.exp` is positive
and the initial price is). -/
theorem fbm_path_validation_and_positivity
    (sqrt exp : ℚ → ℚ) (fbm_sample : List ℚ) (initial_price hurst : ℚ)
    (days : ℕ) (volatility drift : ℚ) :
    ((hurst ≤ 0 ∨ 1 ≤ hurst) →
      generate_fbm_path sqrt exp fbm_sample initial_price hurst days volatility drift =
        Except.error (PyErr.valueError ("Hurst exponent must be between 0 and 1"))) ∧
    (0 < initial_price → 0 < hurst → hurst < 1 → 0 < days → 0 ≤ volatility →
      fbm_sample.length = days + 1 → (∀ x, 0 < exp x) →
      ∃ path,
        generate_fbm_path sqrt exp fbm_sample initial_price hurst days volatility drift =
          Except.ok path ∧
        path.length = days + 1 ∧ ∀ p ∈ path, 0 < p) := by
  constructor
  · intro h
    have hn : ¬ (0 < hurst ∧ hurst < 1) := by
      rcases h with h | h
      · exact fun hc => absurd hc.1 (not_lt.2 h)
      · exact fun hc => absurd hc.2 (not_lt.2 h)
    simp [generate_fbm_path, hn]
  · intro hp h0 h1 _hd _hv hlen hexp
    unfold generate_fbm_path
    rw [if_neg (not_not.2 ⟨h0, h1⟩)]
    refine ⟨_, rfl, ?_, ?_⟩
    · simp [cumsum_length, diffPrepend0_length, hlen]
    · intro p hm
      rcases List.mem_map.1 hm with ⟨c, _, rfl⟩
      exact mul_pos hp (hexp c)

/-- Witness for C7: a rejected Hurst value and a concrete valid run. -/
theorem fbm_path_validation_and_positivity_witness :
    generate_fbm_path id (fun _ => 1) [0, 0, 0] 100 2 2 (1/5) (1/20) =
      Except.error (PyErr.valueError ("Hurst exponent must be between 0 and 1")) ∧
    ∃ path,
      generate_fbm_path id (fun _ => 1) [0, 0, 0] 100 (1/2) 2 (1/5) (1/20) =
        Except.ok path ∧
      path.length = 2 + 1 ∧ ∀ p ∈ path, 0 < p :=
  ⟨(fbm_path_validation_and_positivity id (fun _ => 1) [0, 0, 0] 100 2 2 (1/5) (1/20)).1
     (Or.inr (by decide)),
   (fbm_path_validation_and_positivity id (fun _ => 1) [0, 0, 0] 100 (1/2) 2 (1/5) (1/20)).2
     (by decide) (by decide) (by decide) (by decide) (by decide) (by decide)
     (fun _ => by decide)⟩

/-! ## C5 and C4: the GARCH forecast series -/

/-- C5: for an accepted return series (length ≥ 50) and horizon ≥ 1, given
the fitted model's variance row of contractual length `forecast_horizon`
with non-negative entries (the `arch` library's contract) and a square root
that is non-negative on non-negative inputs, `fit_garch_forecast` returns a
forecast of length exactly `forecast_horizon` whose volatility values are
all non-negative. -/
theorem garch_forecast_length_and_nonneg
    (sqrt : ℚ → ℚ) (garch_variance_row : List ℚ) (returns : List (ℤ × Option ℚ))
    (forecast_horizon : ℕ) (hlen : 50 ≤ returns.length) (_hh : 1 ≤ forecast_horizon)
    (hrow : garch_variance_row.length = forecast_horizon)
    (hnn : ∀ v ∈ garch_variance_row, 0 ≤ v)
    (hsqrt : ∀ x, 0 ≤ x → 0 ≤ sqrt x) :
    ∃ out,
      fit_garch_forecast sqrt garch_variance_row returns forecast_horizon =
        Except.ok out ∧
      out.length = forecast_horizon ∧ ∀ p ∈ out, 0 ≤ p.2 := by
  have hne : returns ≠ [] := by
    intro h
    rw [h] at hlen
    simp at hlen
  unfold fit_garch_forecast
  rw [if_neg (by omega)]
  cases hgl : returns.getLast? with
  | none =>
    exact absurd (List.getLast?_eq_none_iff.1 hgl) hne
  | some last =>
    dsimp only
    rw [if_neg (not_not.2 (by simp [hrow]))]
    refine ⟨_, rfl, ?_, ?_⟩
    · simp [hrow]
    · intro p hm
      have h2 := (List.of_mem_zip hm).2
      rcases List.mem_map.1 h2 with ⟨v, hv, hpv⟩
      rw [← hpv]
      exact div_nonneg (hsqrt v (hnn v hv)) (by norm_num)

/-- Witness for C5 at a concrete 50-observation series and horizon 2. -/
theorem garch_forecast_length_and_nonneg_witness :
    50 ≤ ((List.range 50).map (fun k => ((k : ℤ), some (1 : ℚ)))).length ∧
    ∃ out,
      fit_garch_forecast id [1, 4] ((List.range 50).map (fun k => ((k : ℤ), some (1 : ℚ)))) 2 =
        Except.ok out ∧
      out.length = 2 ∧ ∀ p ∈ out, 0 ≤ p.2 :=
  ⟨by decide,
   garch_forecast_length_and_nonneg id [1, 4]
     ((List.range 50).map (fun k => ((k : ℤ), some (1 : ℚ)))) 2
     (by decide) (by decide) (by decide)
     (by decide)
     (fun x hx => hx)⟩

/-- Concrete failing input for C4: 50 daily observations dated 0..49. -/
def c4Returns : List (ℤ × Option ℚ) := (List.range 50).map (fun k => ((k : ℤ), some 1))

/-- C4 (code bug): on a valid input — 50 observations dated 0..49, horizon
30, a well-formed variance row — `fit_garch_forecast` returns a single
series containing only the 30 strictly-future dates 50..79; it produces no
in-sample conditional-volatility sequence aligned to the input index (every
returned date exceeds every input date), although its `-> tuple` annotation
and both call sites (`in_sample_vol, forecast_vol = fit_garch_forecast(...)`
in src/core/main.py line 455 and src/ai/tools/quant_tools.py line 148)
expect the pair the claim and spec describe. -/
theorem garch_forecast_returns_only_future_series :
    fit_garch_forecast id (List.replicate 30 1) c4Returns 30 =
      Except.ok ((List.range 30).map (fun k => ((50 + (k : ℤ)), (1 / 100 : ℚ)))) ∧
    ((List.range 30).map (fun k => ((50 + (k : ℤ)), (1 / 100 : ℚ)))).all
      (fun p => decide (49 < p.1)) = true := by
  decide

/-! ## C6: the returned Hurst exponent is the clipped OLS slope -/

/-- C6: whenever `calculate_hurst` succeeds, the returned value is exactly
the ordinary-least-squares slope of log10(mean R/S) against log10(scale)
over the retained parallel pairs, clipped by `np.clip` to [0.01, 0.99];
in particular every returned Hurst exponent lies in [0.01, 0.99]. -/
theorem hurst_clipped_ols_slope
    (sqrt log10 : ℚ → ℚ) (series : List (Option ℚ)) (min_window : ℕ)
    (windows : List ℕ) (h : ℚ)
    (hok : calculate_hurst sqrt log10 series min_window windows = Except.ok h) :
    h = npClip (olsSlope
        ((hurstPairs sqrt (dropna series) min_window windows).2.map
          (fun w => log10 (w : ℚ)))
        ((hurstPairs sqrt (dropna series) min_window windows).1.map log10))
      (1/100) (99/100) ∧
    1/100 ≤ h ∧ h ≤ 99/100 := by
  simp only [calculate_hurst] at hok
  split at hok
  · exact Except.noConfusion hok
  · split at hok
    · exact Except.noConfusion hok
    · injection hok with hh
      refine ⟨hh.symm, ?_, ?_⟩
      · rw [← hh, npClip]
        exact le_min (le_max_right _ _) (by norm_num)
      · rw [← hh, npClip]
        exact min_le_right _ _

set_option maxRecDepth 4000 in
/-- Witness for C6: the concrete alternating series yields H = 1/4, inside
the clip interval. -/
theorem hurst_clipped_ols_slope_witness :
    calculate_hurst id id altSeries 2 [2, 3, 4] = Except.ok (1/4) ∧
    1/100 ≤ (1/4 : ℚ) ∧ (1/4 : ℚ) ≤ 99/100 :=
  ⟨by decide, (hurst_clipped_ols_slope id id altSeries 2 [2, 3, 4] (1/4) (by decide)).2⟩

/-! ## Order statistics facts for the quantile -/

theorem getD_mem {l : List ℚ} {i : ℕ} (h : i < l.length) : l.getD i 0 ∈ l := by
  rw [List.getD_eq_getElem?_getD, List.getElem?_eq_getElem h]
  exact List.getElem_mem h

theorem sorted_getD_le {l : List ℚ} (hs : List.Sorted (· ≤ ·) l) {i j : ℕ}
    (hij : i ≤ j) (hj : j < l.length) : l.getD i 0 ≤ l.getD j 0 := by
  have hi : i < l.length := lt_of_le_of_lt hij hj
  rw [List.getD_eq_getElem?_getD, List.getElem?_eq_getElem hi,
    List.getD_eq_getElem?_getD, List.getElem?_eq_getElem hj]
  exact hs.rel_get_of_le hij

/-- Some element of a non-empty list lies at or below its
linear-interpolation quantile for any level in [0,1] (the minimum does). -/
theorem exists_mem_le_quantileLinear (l : List ℚ) (q : ℚ) (hl : l ≠ [])
    (hq0 : 0 ≤ q) (hq1 : q ≤ 1) : ∃ x ∈ l, x ≤ quantileLinear l q := by
  have hperm : (sortedVals l).Perm l := List.perm_insertionSort (fun a b : ℚ => a ≤ b) l
  have hs : List.Sorted (· ≤ ·) (sortedVals l) :=
    List.sorted_insertionSort (fun a b : ℚ => a ≤ b) l
  have hn : 0 < (sortedVals l).length := by
    rw [hperm.length_eq]
    exact List.length_pos.2 hl
  refine ⟨(sortedVals l).getD 0 0, hperm.mem_iff.1 (getD_mem hn), ?_⟩
  simp only [quantileLinear]
  set s := sortedVals l with hsdef
  set pos := q * ((s.length : ℚ) - 1) with hposdef
  have hn1 : (1 : ℚ) ≤ (s.length : ℚ) := by exact_mod_cast hn
  have hpos0 : 0 ≤ pos := mul_nonneg hq0 (by linarith)
  have hposle : pos ≤ (s.length : ℚ) - 1 := by
    have := mul_le_mul_of_nonneg_right hq1 (show (0:ℚ) ≤ (s.length : ℚ) - 1 by linarith)
    simpa using this
  set i := (Int.floor pos).toNat with hidef
  have hicast : (i : ℚ) = Int.floor pos := by
    rw [hidef]
    exact_mod_cast Int.toNat_of_nonneg (Int.floor_nonneg.2 hpos0)
  have hile : (i : ℚ) ≤ pos := by
    rw [hicast]
    exact Int.floor_le pos
  have hin : i < s.length := by
    have h1 : (i : ℚ) ≤ (s.length : ℚ) - 1 := le_trans hile hposle
    have h2 : (i : ℚ) < (s.length : ℚ) := by linarith
    exact_mod_cast h2
  have hfrac : 0 ≤ pos - (i : ℚ) := by linarith
  by_cases hcase : i + 1 < s.length
  · rw [if_pos hcase]
    have h01 : s.getD 0 0 ≤ s.getD i 0 := sorted_getD_le hs (Nat.zero_le i) hin
    have hii : s.getD i 0 ≤ s.getD (i + 1) 0 := sorted_getD_le hs (Nat.le_succ i) hcase
    have hprod : 0 ≤ (pos - (i : ℚ)) * (s.getD (i + 1) 0 - s.getD i 0) :=
      mul_nonneg hfrac (by linarith)
    linarith
  · rw [if_neg hcase]
    exact sorted_getD_le hs (Nat.zero_le i) hin

/-- Shared success-path description of `calculate_cvar`: with a valid
confidence level and a non-empty cleaned series, the tail at or below the
VaR threshold is non-empty and the result is the negated tail mean (the
degenerate `-var_threshold` branch is never taken). -/
theorem cvar_success_eq (returns : List (Option ℚ)) (c : ℚ)
    (h0 : 0 < c) (h1 : c < 1) (hne : dropna returns ≠ []) :
    (dropna returns).filter
        (fun x => x ≤ quantileLinear (dropna returns) (1 - c)) ≠ [] ∧
    calculate_cvar returns c =
      CvarResult.val (-(listMean ((dropna returns).filter
        (fun x => x ≤ quantileLinear (dropna returns) (1 - c))))) := by
  obtain ⟨x, hx, hxle⟩ :=
    exists_mem_le_quantileLinear (dropna returns) (1 - c) hne (by linarith) (by linarith)
  have htail : x ∈ (dropna returns).filter
      (fun y => y ≤ quantileLinear (dropna returns) (1 - c)) :=
    List.mem_filter.2 ⟨hx, by simpa using hxle⟩
  have htne := List.ne_nil_of_mem htail
  refine ⟨htne, ?_⟩
  simp only [calculate_cvar]
  rw [if_neg (not_not.2 ⟨h0, h1⟩),
    if_neg (fun h => hne (List.length_eq_zero.1 h)),
    if_neg (fun h => htne (List.length_eq_zero.1 h))]

/-! ## C10: the degenerate CVaR branch is unreachable -/

/-- C10: for every series non-empty after NaN removal and confidence level
in (0,1), at least one cleaned return lies at or below the VaR threshold,
so the tail is non-empty and the returned CVaR is the negated mean of that
non-empty tail — the `-var_threshold` fallback branch is unreachable. -/
theorem cvar_degenerate_branch_unreachable (returns : List (Option ℚ)) (c : ℚ)
    (h0 : 0 < c) (h1 : c < 1) (hne : dropna returns ≠ []) :
    (∃ x ∈ dropna returns, x ≤ quantileLinear (dropna returns) (1 - c)) ∧
    (dropna returns).filter
        (fun x => x ≤ quantileLinear (dropna returns) (1 - c)) ≠ [] ∧
    calculate_cvar returns c =
      CvarResult.val (-(listMean ((dropna returns).filter
        (fun x => x ≤ quantileLinear (dropna returns) (1 - c))))) := by
  obtain ⟨htne, heq⟩ := cvar_success_eq returns c h0 h1 hne
  exact ⟨exists_mem_le_quantileLinear (dropna returns) (1 - c) hne
    (by linarith) (by linarith), htne, heq⟩

/-- Witness for C10 on a concrete two-point series. -/
theorem cvar_degenerate_branch_unreachable_witness :
    dropna [some 1, some 2] ≠ [] ∧
    ((∃ x ∈ dropna [some 1, some 2],
        x ≤ quantileLinear (dropna [some 1, some 2]) (1 - 1/2)) ∧
     (dropna [some 1, some 2]).filter
        (fun x => x ≤ quantileLinear (dropna [some 1, some 2]) (1 - 1/2)) ≠ [] ∧
     calculate_cvar [some 1, some 2] (1/2) =
      CvarResult.val (-(listMean ((dropna [some 1, some 2]).filter
        (fun x => x ≤ quantileLinear (dropna [some 1, some 2]) (1 - 1/2)))))) :=
  ⟨by decide,
   cvar_degenerate_branch_unreachable [some 1, some 2] (1/2)
     (by decide) (by decide) (by decide)⟩

/-! ## C2: CVaR versus the VaR threshold -/

/-- C2 counterexample to the claim as stated: on the all-positive series
[1,2,3,4] at confidence 0.95 the VaR threshold is 23/20, so the VaR
magnitude is 23/20, while the returned CVaR is -1 with magnitude 1 < 23/20:
the magnitude inequality fails when the (1-confidence)-quantile is a gain
rather than a loss. -/
theorem cvar_magnitude_counterexample :
    calculate_cvar [some 1, some 2, some 3, some 4] (95/100) = CvarResult.val (-1) ∧
    quantileLinear (dropna [some 1, some 2, some 3, some 4]) (1 - 95/100) = 23/20 ∧
    |(-1 : ℚ)| < |(23/20 : ℚ)| := by
  decide

/-- C2 (amended): for every series non-empty after NaN removal and
confidence level in (0,1), the returned CVaR is at least the negated VaR
threshold; consequently, whenever the VaR threshold is a loss (≤ 0), the
CVaR magnitude is at least the VaR magnitude at that confidence level. -/
theorem cvar_ge_neg_var_threshold (returns : List (Option ℚ)) (c : ℚ)
    (h0 : 0 < c) (h1 : c < 1) (hne : dropna returns ≠ []) :
    ∃ v, calculate_cvar returns c = CvarResult.val v ∧
      -(quantileLinear (dropna returns) (1 - c)) ≤ v ∧
      (quantileLinear (dropna returns) (1 - c) ≤ 0 →
        |quantileLinear (dropna returns) (1 - c)| ≤ |v|) := by
  obtain ⟨htne, heq⟩ := cvar_success_eq returns c h0 h1 hne
  refine ⟨_, heq, ?_, ?_⟩
  all_goals
    have hmean : listMean ((dropna returns).filter
        (fun x => x ≤ quantileLinear (dropna returns) (1 - c))) ≤
        quantileLinear (dropna returns) (1 - c) :=
      listMean_le_of_forall_le _ _ htne
        (fun x hx => by simpa using (List.mem_filter.1 hx).2)
  · linarith
  · intro hT0
    rw [abs_of_nonpos hT0, abs_of_nonneg (by linarith : (0:ℚ) ≤
      -(listMean ((dropna returns).filter
        (fun x => x ≤ quantileLinear (dropna returns) (1 - c)))))]
    linarith

/-- Witness for C2 on a concrete all-loss series, where the threshold is
non-positive and the magnitude inequality is meaningful. -/
theorem cvar_ge_neg_var_threshold_witness :
    dropna [some (-1), some (-2), some (-3), some (-4)] ≠ [] ∧
    quantileLinear (dropna [some (-1), some (-2), some (-3), some (-4)]) (1 - 95/100) ≤ 0 ∧
    ∃ v, calculate_cvar [some (-1), some (-2), some (-3), some (-4)] (95/100) =
        CvarResult.val v ∧
      -(quantileLinear (dropna [some (-1), some (-2), some (-3), some (-4)]) (1 - 95/100)) ≤ v ∧
      (quantileLinear (dropna [some (-1), some (-2), some (-3), some (-4)]) (1 - 95/100) ≤ 0 →
        |quantileLinear (dropna [some (-1), some (-2), some (-3), some (-4)]) (1 - 95/100)| ≤ |v|) :=
  ⟨by decide, by decide,
   cvar_ge_neg_var_threshold [some (-1), some (-2), some (-3), some (-4)] (95/100)
     (by decide) (by decide) (by decide)⟩

/-! ## C9: the regime detector's volatility fallback -/

theorem getD_map_range {α : Type} (n : ℕ) (f : ℕ → α) (i : ℕ) (d : α) (h : i < n) :
    ((List.range n).map f).getD i d = f i := by
  rw [List.getD_eq_getElem?_getD, List.getElem?_map, List.getElem?_range h]
  rfl

/-- The per-regime statistics loop succeeds exactly when every regime index
is below 3 (the length of the hard-coded name list); in particular for all
indices drawn from `range n_regimes` with `n_regimes ≤ 3`. -/
theorem regimeStatsAux_ok (sqrt : ℚ → ℚ) (data : List ℚ) (regimes : List ℕ)
    (idxs : List ℕ) (h : ∀ i ∈ idxs, i < 3) :
    ∃ stats, regimeStatsAux sqrt data regimes idxs = Except.ok stats := by
  induction idxs with
  | nil => exact ⟨[], rfl⟩
  | cons i rest ih =>
    obtain ⟨tail, htail⟩ := ih (fun j hj => h j (List.mem_cons_of_mem i hj))
    have hi : i < 3 := h i (List.mem_cons_self i rest)
    have hname : ∃ nm, regimeName i = Except.ok nm := by
      interval_cases i <;> exact ⟨_, rfl⟩
    obtain ⟨nm, hnm⟩ := hname
    cases hres : regimeStatsAux sqrt data regimes (i :: rest) with
    | error e =>
      simp [regimeStatsAux, hnm, htail] at hres
    | ok s => exact ⟨s, rfl⟩

/-- C9 counterexample to the claim as stated: invoked with four regimes on
twenty observations, the fallback raises `IndexError` from its hard-coded
three-element regime-name list (src/ai/tools/quant_tools.py line 246)
before returning anything, so no label series or transition matrix is
produced. -/
theorem regime_fallback_four_regimes_raises :
    detect_market_regimes_fallback id (List.replicate 20 (0:ℚ)) 4 =
      Except.error (PyErr.indexError ("list index out of range")) := by
  decide

/-- C9 (amended): whenever the fallback path runs on at least 20
observations (so the rolling-volatility distribution is non-empty and
`np.percentile` is defined) with at most 3 regimes (`n_regimes ≤ 3`; the
hard-coded name list makes the statistics loop raise `IndexError` for any
more, and 3 is the tool's default), it returns one integer label in
\x7b0,1,2\x7d per observation; every observation whose window-20 rolling
standard deviation is missing (the first 19) gets the medium bucket 1;
every later observation is bucketed by comparing its rolling standard
deviation with the 33rd/67th percentile of the non-missing rolling values;
and the transition matrix is empty. -/
theorem regime_fallback_spec (sqrt : ℚ → ℚ) (data : List ℚ) (n_regimes : ℕ)
    (hlen : 20 ≤ data.length) (hn3 : n_regimes ≤ 3) :
    ∃ r, detect_market_regimes_fallback sqrt data n_regimes = Except.ok r ∧
      r.regime_labels.length = data.length ∧
      r.transition_matrix = [] ∧
      (∀ lab ∈ r.regime_labels, lab = 0 ∨ lab = 1 ∨ lab = 2) ∧
      (∀ i, i + 1 < 20 → i < data.length → r.regime_labels.getD i 3 = 1) ∧
      (∀ i, 20 ≤ i + 1 → i < data.length →
        r.regime_labels.getD i 3 =
          (if sqrt (sampleVar ((data.drop (i + 1 - 20)).take 20)) <
              quantileLinear ((rollingStd sqrt 20 data).filterMap id) (33/100) then 0
           else if sqrt (sampleVar ((data.drop (i + 1 - 20)).take 20)) <
              quantileLinear ((rollingStd sqrt 20 data).filterMap id) (67/100) then 1
           else 2)) := by
  have h19 : 19 < data.length := by omega
  have hmem : some (sqrt (sampleVar ((data.drop 0).take 20))) ∈ rollingStd sqrt 20 data := by
    rw [rollingStd]
    exact List.mem_map.2 ⟨19, List.mem_range.2 h19, by norm_num⟩
  have hne : (rollingStd sqrt 20 data).filterMap id ≠ [] := by
    intro hcontra
    have hmem2 : sqrt (sampleVar ((data.drop 0).take 20)) ∈
        (rollingStd sqrt 20 data).filterMap id :=
      List.mem_filterMap.2 ⟨_, hmem, rfl⟩
    rw [hcontra] at hmem2
    exact absurd hmem2 (List.not_mem_nil _)
  obtain ⟨stats, hstats⟩ := regimeStatsAux_ok sqrt data (fallbackRegimes sqrt data)
    (List.range n_regimes)
    (fun i hi => lt_of_lt_of_le (List.mem_range.1 hi) hn3)
  simp only [detect_market_regimes_fallback]
  rw [if_neg (by simpa [List.isEmpty_iff] using hne), hstats]
  refine ⟨_, rfl, ?_, rfl, ?_, ?_, ?_⟩
  · simp [fallbackRegimes, rollingStd]
  · intro lab hlab
    simp only [fallbackRegimes] at hlab
    rcases List.mem_map.1 hlab with ⟨vol, _, rfl⟩
    rcases vol with _ | v
    · simp
    · dsimp only
      split_ifs <;> simp
  · intro i hi hilen
    simp only [fallbackRegimes]
    rw [rollingStd, List.map_map,
      getD_map_range data.length _ i 3 hilen]
    simp [hi]
  · intro i hi hilen
    simp only [fallbackRegimes]
    rw [rollingStd, List.map_map,
      getD_map_range data.length _ i 3 hilen]
    have hnot : ¬ (i + 1 < 20) := by omega
    simp only [Function.comp, if_neg hnot]

/-- Witness for C9 on twenty zero observations and the default three
regimes, with the identity square root: the rolling set is the single
value 0, both percentiles are 0, and the one non-missing observation lands
in the high bucket. -/
theorem regime_fallback_spec_witness :
    20 ≤ (List.replicate 20 (0:ℚ)).length ∧ 3 ≤ 3 ∧
    ∃ r, detect_market_regimes_fallback id (List.replicate 20 (0:ℚ)) 3 = Except.ok r ∧
      r.regime_labels.length = (List.replicate 20 (0:ℚ)).length ∧
      r.transition_matrix = [] ∧
      (∀ lab ∈ r.regime_labels, lab = 0 ∨ lab = 1 ∨ lab = 2) ∧
      (∀ i, i + 1 < 20 → i < (List.replicate 20 (0:ℚ)).length → r.regime_labels.getD i 3 = 1) ∧
      (∀ i, 20 ≤ i + 1 → i < (List.replicate 20 (0:ℚ)).length →
        r.regime_labels.getD i 3 =
          (if id (sampleVar (((List.replicate 20 (0:ℚ)).drop (i + 1 - 20)).take 20)) <
              quantileLinear ((rollingStd id 20 (List.replicate 20 (0:ℚ))).filterMap id) (33/100) then 0
           else if id (sampleVar (((List.replicate 20 (0:ℚ)).drop (i + 1 - 20)).take 20)) <
              quantileLinear ((rollingStd id 20 (List.replicate 20 (0:ℚ))).filterMap id) (67/100) then 1
           else 2)) :=
  ⟨by decide, by decide,
   regime_fallback_spec id (List.replicate 20 (0:ℚ)) 3 (by decide) (by decide)⟩

/-! ## C1: both regressions pair statistics with their own retained scales -/

/-- Predicate for a candidate window size being retained by
`calculate_hurst`: not skipped by the bounds guard, and producing at least
one valid (positive-deviation) sub-window. -/
def hurstValidWindow (sqrt : ℚ → ℚ) (series : List ℚ) (min_window w : ℕ) : Bool :=
  !(decide (w < min_window) || decide (series.length < w)) &&
    !(rsWindowVals sqrt series w).isEmpty

theorem hurstPairs_spec (sqrt : ℚ → ℚ) (series : List ℚ) (min_window : ℕ)
    (windows : List ℕ) :
    hurstPairs sqrt series min_window windows =
      ((windows.filter (hurstValidWindow sqrt series min_window)).map
        (fun w => listMean (rsWindowVals sqrt series w)),
       windows.filter (hurstValidWindow sqrt series min_window)) := by
  induction windows with
  | nil => rfl
  | cons w rest ih =>
    simp only [hurstPairs, ih]
    by_cases h1 : w < min_window ∨ series.length < w
    · have hv : hurstValidWindow sqrt series min_window w = false := by
        rcases h1 with h | h <;> simp [hurstValidWindow, h]
      rw [if_pos h1]
      simp [List.filter_cons, hv]
    · rw [if_neg h1]
      push_neg at h1
      by_cases h2 : (rsWindowVals sqrt series w).isEmpty
      · have hv : hurstValidWindow sqrt series min_window w = false := by
          simp [hurstValidWindow, h2]
        simp [h2, List.filter_cons, hv]
      · have hv : hurstValidWindow sqrt series min_window w = true := by
          simp [hurstValidWindow, h2, Nat.not_lt.2 h1.1, Nat.not_lt.2 h1.2]
        simp only [Bool.not_eq_true] at h2
        simp [h2, List.filter_cons, hv]

theorem boxFluct_isEmpty (sqrt : ℚ → ℚ) (polyfit : ℕ → List ℚ → List ℚ)
    (order : ℕ) (profile : List ℚ) (b : ℕ) (hb : 1 ≤ b) :
    (boxFluct sqrt polyfit order profile b).isEmpty =
      decide (profile.length < b) := by
  have hb0 : ¬ b = 0 := by omega
  by_cases hN : profile.length < b
  · simp [boxFluct, boxStarts, hN]
  · simp [boxFluct, boxStarts, hN, hb0, List.range_succ]

theorem dfaFlucts_spec (sqrt : ℚ → ℚ) (polyfit : ℕ → List ℚ → List ℚ)
    (order : ℕ) (profile : List ℚ) (box_sizes : List ℕ)
    (hb : ∀ b ∈ box_sizes, 1 ≤ b) :
    dfaFlucts sqrt polyfit order profile box_sizes =
      (box_sizes.filter (fun b => decide (b ≤ profile.length))).map
        (fun b => listMean (boxFluct sqrt polyfit order profile b)) := by
  induction box_sizes with
  | nil => rfl
  | cons b rest ih =>
    have hb1 : 1 ≤ b := hb b (by simp)
    have hrest := ih (fun x hx => hb x (by simp [hx]))
    simp only [dfaFlucts] at hrest ⊢
    by_cases hN : profile.length < b
    · have he : (boxFluct sqrt polyfit order profile b).isEmpty = true := by
        rw [boxFluct_isEmpty sqrt polyfit order profile b hb1]
        simpa using hN
      rw [List.filterMap_cons_none (by simp [he]),
        List.filter_cons_of_neg (by simpa using Nat.not_le.2 hN)]
      exact hrest
    · have he : (boxFluct sqrt polyfit order profile b).isEmpty = false := by
        rw [boxFluct_isEmpty sqrt polyfit order profile b hb1]
        simpa using hN
      rw [List.filterMap_cons]
      simp only [he, Bool.false_eq_true, if_false]
      rw [List.filter_cons_of_pos (by simpa using Nat.not_lt.1 hN),
        List.map_cons, hrest]

theorem sorted_filter_le_eq_take (l : List ℕ) (N : ℕ)
    (hl : List.Sorted (· ≤ ·) l) :
    l.filter (fun b => decide (b ≤ N)) =
      l.take (l.filter (fun b => decide (b ≤ N))).length := by
  induction l with
  | nil => rfl
  | cons a t ih =>
    have hpair := List.sorted_cons.1 hl
    by_cases ha : a ≤ N
    · rw [List.filter_cons_of_pos (by simpa using ha), List.length_cons,
        List.take_succ_cons, ← ih hpair.2]
    · have hft : t.filter (fun b => decide (b ≤ N)) = [] :=
        List.filter_eq_nil_iff.2 (fun b hb => by
          have hab := hpair.1 b hb
          simp
          omega)
      rw [List.filter_cons_of_neg (by simpa using ha), hft]
      simp

/-- C1: for every series accepted by the Hurst estimator and by the DFA
estimator, the final regression inputs form a valid Regression Pair.
For `calculate_hurst`: the parallel lists hold exactly the retained
candidate windows and their statistics, so both log-vectors have the same
positive length and a dropped window is dropped from both.  For
`calculate_dfa`: with the candidate box sizes strictly ascending and
positive (as `np.unique(...astype(int))` of a log-space grid produces),
the positional prefix `box_sizes[:len(fluctuations)]` the source regresses
against is exactly the list of retained box sizes, in the same order and
of the same positive length as the fluctuation list — a box size dropped
for producing no statistic (only possible past the end of the profile) is
excluded from both vectors. -/
theorem regression_pairs_same_retained_scales
    (sqrtH log10H sqrtD log10D : ℚ → ℚ) (polyfit : ℕ → List ℚ → List ℚ)
    (hseries dseries : List (Option ℚ)) (min_window order : ℕ)
    (windows box_sizes : List ℕ) (hres dres : ℚ)
    (hsorted : List.Sorted (· < ·) box_sizes) (hbpos : ∀ b ∈ box_sizes, 1 ≤ b)
    (hok : calculate_hurst sqrtH log10H hseries min_window windows = Except.ok hres)
    (dok : calculate_dfa sqrtD log10D polyfit dseries order box_sizes = Except.ok dres) :
    (hurstPairs sqrtH (dropna hseries) min_window windows).1.length =
      (hurstPairs sqrtH (dropna hseries) min_window windows).2.length ∧
    0 < (hurstPairs sqrtH (dropna hseries) min_window windows).1.length ∧
    (hurstPairs sqrtH (dropna hseries) min_window windows).2 =
      windows.filter (hurstValidWindow sqrtH (dropna hseries) min_window) ∧
    (hurstPairs sqrtH (dropna hseries) min_window windows).1 =
      (windows.filter (hurstValidWindow sqrtH (dropna hseries) min_window)).map
        (fun w => listMean (rsWindowVals sqrtH (dropna hseries) w)) ∧
    (box_sizes.take
        (dfaFlucts sqrtD polyfit order (dfaProfile dseries) box_sizes).length).length =
      (dfaFlucts sqrtD polyfit order (dfaProfile dseries) box_sizes).length ∧
    0 < (dfaFlucts sqrtD polyfit order (dfaProfile dseries) box_sizes).length ∧
    box_sizes.take
        (dfaFlucts sqrtD polyfit order (dfaProfile dseries) box_sizes).length =
      box_sizes.filter (fun b => decide (b ≤ (dfaProfile dseries).length)) ∧
    dfaFlucts sqrtD polyfit order (dfaProfile dseries) box_sizes =
      (box_sizes.filter (fun b => decide (b ≤ (dfaProfile dseries).length))).map
        (fun b => listMean (boxFluct sqrtD polyfit order (dfaProfile dseries) b)) := by
  have hspec := hurstPairs_spec sqrtH (dropna hseries) min_window windows
  have hdspec := dfaFlucts_spec sqrtD polyfit order (dfaProfile dseries) box_sizes hbpos
  have hcount : ¬ ((hurstPairs sqrtH (dropna hseries) min_window windows).1.length < 3) := by
    simp only [calculate_hurst] at hok
    split at hok
    · exact Except.noConfusion hok
    · split at hok
      · exact Except.noConfusion hok
      · assumption
  have dcount : ¬ ((dfaFlucts sqrtD polyfit order (dfaProfile dseries) box_sizes).length < 5) := by
    simp only [calculate_dfa] at dok
    split at dok
    · exact Except.noConfusion dok
    · split at dok
      · exact Except.noConfusion dok
      · assumption
  have hfilter_take : box_sizes.filter (fun b => decide (b ≤ (dfaProfile dseries).length)) =
      box_sizes.take
        (box_sizes.filter (fun b => decide (b ≤ (dfaProfile dseries).length))).length :=
    sorted_filter_le_eq_take box_sizes (dfaProfile dseries).length
      (hsorted.imp (fun h => le_of_lt h))
  have hflen : (dfaFlucts sqrtD polyfit order (dfaProfile dseries) box_sizes).length =
      (box_sizes.filter (fun b => decide (b ≤ (dfaProfile dseries).length))).length := by
    rw [hdspec, List.length_map]
  refine ⟨?_, ?_, ?_, ?_, ?_, ?_, ?_, hdspec⟩
  · rw [hspec]
    simp
  · rw [hspec] at hcount ⊢
    simp at hcount ⊢
    omega
  · rw [hspec]
  · rw [hspec]
  · rw [List.length_take, hflen]
    have hle : (box_sizes.filter
        (fun b => decide (b ≤ (dfaProfile dseries).length))).length ≤ box_sizes.length :=
      List.length_filter_le _ _
    omega
  · exact lt_of_lt_of_le (by norm_num) (Nat.not_lt.1 dcount)
  · rw [hflen, ← hfilter_take]

set_option maxRecDepth 8000 in
/-- Witness for C1: a concrete accepted Hurst run and a concrete accepted
DFA run, with both pairings non-degenerate. -/
theorem regression_pairs_same_retained_scales_witness :
    calculate_hurst id id altSeries 2 [2, 3, 4] = Except.ok (1/4) ∧
    calculate_dfa id id (fun _ _ => []) (List.replicate 50 (some 0)) 1 [1, 2, 3, 4, 5] =
      Except.ok 0 ∧
    0 < (hurstPairs id (dropna altSeries) 2 [2, 3, 4]).1.length ∧
    0 < (dfaFlucts id (fun _ _ => []) 1 (dfaProfile (List.replicate 50 (some 0)))
      [1, 2, 3, 4, 5]).length :=
  ⟨by decide, by decide,
   (regression_pairs_same_retained_scales id id id id (fun _ _ => [])
      altSeries (List.replicate 50 (some 0)) 2 1 [2, 3, 4] [1, 2, 3, 4, 5] (1/4) 0
      (by decide) (by decide) (by decide) (by decide)).2.1,
   (regression_pairs_same_retained_scales id id id id (fun _ _ => [])
      altSeries (List.replicate 50 (some 0)) 2 1 [2, 3, 4] [1, 2, 3, 4, 5] (1/4) 0
      (by decide) (by decide) (by decide) (by decide)).2.2.2.2.2.1⟩
